import Mathlib

/-!
Shallow embedding of `density_areas.py`.

The program consists of three Poisson-bracket evaluators
(`PoissonWasserstein_R2`, `PoissonWasserstein_T2`, `PoissonWasserstein_S2`)
and one symplectic-area integrator (`area_Omega_S2`).  The evaluators parse
four expression strings with the external algebra collaborator
(`sym.sympify`), build the bracket integrand by symbolic partial
differentiation, and either integrate it in closed form (`sym.integrate`) or
numerically (`scipy.integrate.dblquad`).  The area integrator nests four 1-D
quadratures (`scipy.integrate.quad`).

Modelling decisions, stated once here:
* Symbolic expressions are an inductive AST `Expr` covering the fragment the
  program manipulates; `Expr.diff` mirrors `sym.diff` syntactically and
  `Expr.eval` gives the real-number denotation under an assignment of the
  named symbols (machine floats are modelled as real numbers).
* The external integration collaborators are modelled semantically and
  idealized: `sym_integrate` is the real interval integral of the
  denotation, and `quad` / `dblquad` return the exact interval integral
  paired with a reported error estimate of `0`.
* Python values reaching the `numerical == True` comparison are modelled by
  `PyVal` together with `pyEq`, Python's `==` on that fragment (`bool` is an
  `int` subtype in Python, so `1 == True`; strings never equal `True`).
* Parsing (`sym.sympify`) is an external collaborator; the evaluators take
  the parser as an explicit argument, and `sympify` below is a concrete
  model of it on the atomic inputs used by the concrete scenarios.
-/

set_option maxHeartbeats 1000000

/-- Symbolic expressions: the fragment of the algebra engine's expression
type that the program builds and consumes (numeric constants, the constant
pi, named symbols, ring operations, sine, cosine, natural powers). -/
inductive Expr where
  | const : ℕ → Expr
  | pi : Expr
  | var : String → Expr
  | add : Expr → Expr → Expr
  | sub : Expr → Expr → Expr
  | mul : Expr → Expr → Expr
  | neg : Expr → Expr
  | sin : Expr → Expr
  | cos : Expr → Expr
  | pow : Expr → ℕ → Expr

deriving instance DecidableEq for Expr

/-- Symbolic partial differentiation with respect to a named symbol: models
the external algebra collaborator `sym.diff` on the embedded fragment. -/
def Expr.diff : Expr → String → Expr
  | .const _, _ => .const 0
  | .pi, _ => .const 0
  | .var y, x => if y = x then .const 1 else .const 0
  | .add a b, x => .add (a.diff x) (b.diff x)
  | .sub a b, x => .sub (a.diff x) (b.diff x)
  | .mul a b, x => .add (.mul (a.diff x) b) (.mul a (b.diff x))
  | .neg a, x => .neg (a.diff x)
  | .sin a, x => .mul (.cos a) (a.diff x)
  | .cos a, x => .neg (.mul (.sin a) (a.diff x))
  | .pow a n, x => .mul (.mul (.const n) (.pow a (n - 1))) (a.diff x)

/-- Real-number denotation of an expression under an assignment `env` of its
named symbols. -/
noncomputable def Expr.eval (env : String → ℝ) : Expr → ℝ
  | .const n => n
  | .pi => Real.pi
  | .var y => env y
  | .add a b => a.eval env + b.eval env
  | .sub a b => a.eval env - b.eval env
  | .mul a b => a.eval env * b.eval env
  | .neg a => -a.eval env
  | .sin a => Real.sin (a.eval env)
  | .cos a => Real.cos (a.eval env)
  | .pow a n => (a.eval env) ^ n

/-- Environment update: bind the symbol named `x` to the value `v`. -/
def updEnv (env : String → ℝ) (x : String) (v : ℝ) : String → ℝ :=
  fun y => if y = x then v else env y

/-- Models the external algebra collaborator `sym.integrate` on a definite
integral `(x, a, b)`: semantically, the interval integral of the denotation
with respect to the integration variable. -/
noncomputable def sym_integrate (f : ℝ → ℝ) (a b : ℝ) : ℝ :=
  ∫ x in a..b, f x

/-- Models the external quadrature collaborator `scipy.integrate.quad`,
idealized: the exact interval integral with a reported error estimate of 0. -/
noncomputable def quad (f : ℝ → ℝ) (a b : ℝ) : ℝ × ℝ :=
  (∫ x in a..b, f x, 0)

/-- Models the external quadrature collaborator `scipy.integrate.dblquad`,
idealized.  `dblquad f a b g h` integrates `f y x` with the first argument
`y` as the inner variable running from `g x` to `h x` and the second
argument `x` as the outer variable running from `a` to `b`, exactly as
scipy documents; the reported error estimate is 0. -/
noncomputable def dblquad (f : ℝ → ℝ → ℝ) (a b : ℝ) (g h : ℝ → ℝ) : ℝ × ℝ :=
  (∫ x in a..b, ∫ y in (g x)..(h x), f y x, 0)

/-- Python values that can reach the `numerical == True` test of the
evaluators: booleans, integers, strings and `None`. -/
inductive PyVal where
  | bool : Bool → PyVal
  | int : ℤ → PyVal
  | str : String → PyVal
  | none : PyVal

deriving instance DecidableEq for PyVal

/-- Python's `==` on the embedded value fragment: `bool` is an `int`
subtype (`True == 1`, `False == 0`), strings compare only with strings,
`None` only with `None`. -/
def pyEq : PyVal → PyVal → Bool
  | .bool a, .bool b => a == b
  | .bool a, .int n => (if a then (1 : ℤ) else 0) == n
  | .int n, .bool b => n == (if b then (1 : ℤ) else 0)
  | .int m, .int n => m == n
  | .str s, .str t => s == t
  | .none, .none => true
  | _, _ => false

/-- Result of a bracket evaluator: either the symbolic value of the exact
double integral, or a numerical `(approximation, error estimate)` pair. -/
inductive BracketResult where
  | symbolic : ℝ → BracketResult
  | numeric : ℝ × ℝ → BracketResult

/-- True exactly on numerical-mode results. -/
def BracketResult.isNumeric : BracketResult → Bool
  | .symbolic _ => false
  | .numeric _ => true

/-- Negation of a bracket result: the symbolic value, or the numerical
value, is negated; a numerical error estimate is kept. -/
def BracketResult.negate : BracketResult → BracketResult
  | .symbolic x => .symbolic (-x)
  | .numeric p => .numeric (-p.1, p.2)

/-- The common bracket term of all three evaluators, line 66 / 139 / 216 of
the source: `(diff ff c1 * diff hh c2 - diff hh c1 * diff ff c2) * tau`
with `(c1, c2)` the manifold's coordinate symbols. -/
def bracket_expr (c1 c2 : String) (tau ff hh : Expr) : Expr :=
  .mul (.sub (.mul (ff.diff c1) (hh.diff c2)) (.mul (hh.diff c1) (ff.diff c2))) tau

/-- Core of `PoissonWasserstein_R2` after parsing (source lines 55-83):
coordinates `x1`, `x2`, measure factor 1, domain `[0,1] × [0,1]`, no
normalization constant.  Exact branch: integrate over `x1` first, then
`x2`.  Numerical branch: `dblquad` with `x1` inner over `[0,1]` and `x2`
outer over `[0,1]`.  `env` interprets any free symbols. -/
noncomputable def PoissonWasserstein_R2_core (env : String → ℝ)
    (tau rho ff hh : Expr) (numerical : PyVal) : BracketResult :=
  let bracket_ff_hh := bracket_expr "x1" "x2" tau ff hh
  let integrand := Expr.mul bracket_ff_hh rho
  if pyEq numerical (.bool true) then
    .numeric (dblquad
      (fun x1v x2v => integrand.eval (updEnv (updEnv env "x2" x2v) "x1" x1v))
      0 1 (fun _ => 0) (fun _ => 1))
  else
    .symbolic (sym_integrate (fun x2v =>
      sym_integrate (fun x1v =>
        integrand.eval (updEnv (updEnv env "x2" x2v) "x1" x1v)) 0 1) 0 1)

/-- Core of `PoissonWasserstein_T2` after parsing (source lines 128-156):
coordinates `theta1`, `theta2`, measure factor 1, domain `[0,2π] × [0,2π]`,
normalization `1/(4π²)` (multiplied into the lambdified integrand in the
numerical branch, applied after integration in the exact branch). -/
noncomputable def PoissonWasserstein_T2_core (env : String → ℝ)
    (tau rho ff hh : Expr) (numerical : PyVal) : BracketResult :=
  let bracket_ff_hh := bracket_expr "theta1" "theta2" tau ff hh
  let integrand := Expr.mul bracket_ff_hh rho
  if pyEq numerical (.bool true) then
    .numeric (dblquad
      (fun t1 t2 => (1 / (4 * Real.pi ^ 2)) *
        integrand.eval (updEnv (updEnv env "theta2" t2) "theta1" t1))
      0 (2 * Real.pi) (fun _ => 0) (fun _ => 2 * Real.pi))
  else
    .symbolic ((1 / (4 * Real.pi ^ 2)) * sym_integrate (fun t2 =>
      sym_integrate (fun t1 =>
        integrand.eval (updEnv (updEnv env "theta2" t2) "theta1" t1))
        0 (2 * Real.pi)) 0 (2 * Real.pi))

/-- Core of `PoissonWasserstein_S2` after parsing (source lines 204-233):
coordinates `theta`, `phi`, measure factor `sin(theta)` multiplied into the
integrand, domain `theta ∈ [0,π]` (inner), `phi ∈ [0,2π]` (outer),
normalization `1/(4π)` (multiplied into the lambdified integrand in the
numerical branch, applied after integration in the exact branch). -/
noncomputable def PoissonWasserstein_S2_core (env : String → ℝ)
    (tau rho ff hh : Expr) (numerical : PyVal) : BracketResult :=
  let bracket_ff_hh := bracket_expr "theta" "phi" tau ff hh
  let integrand := Expr.mul (Expr.mul bracket_ff_hh rho) (Expr.sin (.var "theta"))
  if pyEq numerical (.bool true) then
    .numeric (dblquad
      (fun tv pv => (1 / (4 * Real.pi)) *
        integrand.eval (updEnv (updEnv env "phi" pv) "theta" tv))
      0 (2 * Real.pi) (fun _ => 0) (fun _ => Real.pi))
  else
    .symbolic ((1 / (4 * Real.pi)) * sym_integrate (fun pv =>
      sym_integrate (fun tv =>
        integrand.eval (updEnv (updEnv env "phi" pv) "theta" tv))
        0 Real.pi) 0 (2 * Real.pi))

/-- Full `PoissonWasserstein_R2` (source lines 14-83): parse the four
expression strings with the algebra collaborator `parse` in source order
(`tau`, `rho`, `function1`, `function2`); a parse failure propagates
unmodified and nothing else runs.  On success, run the core. -/
noncomputable def PoissonWasserstein_R2 (parse : String → Except String Expr)
    (env : String → ℝ) (tau rho function1 function2 : String)
    (numerical : PyVal) : Except String BracketResult :=
  match parse tau with
  | .error e => .error e
  | .ok tau' =>
  match parse rho with
  | .error e => .error e
  | .ok rho' =>
  match parse function1 with
  | .error e => .error e
  | .ok ff =>
  match parse function2 with
  | .error e => .error e
  | .ok hh => .ok (PoissonWasserstein_R2_core env tau' rho' ff hh numerical)

/-- Full `PoissonWasserstein_T2` (source lines 86-156): parsing exactly as
in the square evaluator, then the torus core. -/
noncomputable def PoissonWasserstein_T2 (parse : String → Except String Expr)
    (env : String → ℝ) (tau rho function1 function2 : String)
    (numerical : PyVal) : Except String BracketResult :=
  match parse tau with
  | .error e => .error e
  | .ok tau' =>
  match parse rho with
  | .error e => .error e
  | .ok rho' =>
  match parse function1 with
  | .error e => .error e
  | .ok ff =>
  match parse function2 with
  | .error e => .error e
  | .ok hh => .ok (PoissonWasserstein_T2_core env tau' rho' ff hh numerical)

/-- Full `PoissonWasserstein_S2` (source lines 159-233): parsing exactly as
in the square evaluator, then the sphere core. -/
noncomputable def PoissonWasserstein_S2 (parse : String → Except String Expr)
    (env : String → ℝ) (tau rho function1 function2 : String)
    (numerical : PyVal) : Except String BracketResult :=
  match parse tau with
  | .error e => .error e
  | .ok tau' =>
  match parse rho with
  | .error e => .error e
  | .ok rho' =>
  match parse function1 with
  | .error e => .error e
  | .ok ff =>
  match parse function2 with
  | .error e => .error e
  | .ok hh => .ok (PoissonWasserstein_S2_core env tau' rho' ff hh numerical)

/-- Models the external algebra collaborator `sym.sympify` on the atomic
inputs used by the program's concrete scenarios: an unsigned integer
literal parses to a constant, an alphanumeric identifier starting with a
letter parses to a symbol, and anything else is a parse failure. -/
def sympify (s : String) : Except String Expr :=
  let cs := s.data
  if cs.length != 0 && cs.all Char.isDigit then
    .ok (.const (cs.foldl (fun acc c => 10 * acc + (c.toNat - 48)) 0))
  else if cs.length != 0 && (cs.headD 'a').isAlpha && cs.all Char.isAlphanum then
    .ok (.var s)
  else
    .error ("SympifyError: " ++ s)

/-- `area_Omega_S2` (source lines 236-281), parameterized by the quadrature
collaborator `quadC` (the source's imported `quad`).  The `Omega` parameter
is immediately shadowed by the hardcoded local field
`sin(theta) * cos(phi)`, exactly as in the source.  Four nested 1-D
quadratures: `theta` over `[0,π]` innermost, then `phi` over `[0,2π]`, then
`s` over `I_1`, then `t` over `I_2` with the factor `1/(4π)` in the
outermost integrand; each inner quadrature keeps only the value component
and the outermost pair is returned whole. -/
noncomputable def area_Omega_S2 (quadC : (ℝ → ℝ) → ℝ → ℝ → ℝ × ℝ)
    (Omega : ℝ → ℝ → ℝ → ℝ → ℝ) (I_1 I_2 : ℝ × ℝ) : ℝ × ℝ :=
  let Omega := fun (theta phi _s _t : ℝ) => Real.sin theta * Real.cos phi
  let integral_theta := fun (phi s t : ℝ) =>
    (quadC (fun theta => Omega theta phi s t) 0 Real.pi).1
  let integral_phi := fun (s t : ℝ) =>
    (quadC (fun phi => integral_theta phi s t) 0 (2 * Real.pi)).1
  let integral_s := fun (t : ℝ) =>
    (quadC (fun s => integral_phi s t) I_1.1 I_1.2).1
  quadC (fun t => (1 / (4 * Real.pi)) * integral_s t) I_2.1 I_2.2

/-! ### Helper lemmas -/

/-- Swapping the two test functions negates the bracket integrand pointwise
(square and torus integrand shape). -/
lemma integrand_swap (c1 c2 : String) (tau rho fe he : Expr) (env : String → ℝ) :
    (Expr.mul (bracket_expr c1 c2 tau he fe) rho).eval env
      = -((Expr.mul (bracket_expr c1 c2 tau fe he) rho).eval env) := by
  simp only [bracket_expr, Expr.eval]
  ring

/-- Swapping the two test functions negates the sphere integrand pointwise
(the `sin(theta)` measure factor is carried along). -/
lemma integrand_swap_S2 (tau rho fe he : Expr) (env : String → ℝ) :
    (Expr.mul (Expr.mul (bracket_expr "theta" "phi" tau he fe) rho)
      (Expr.sin (.var "theta"))).eval env
      = -((Expr.mul (Expr.mul (bracket_expr "theta" "phi" tau fe he) rho)
      (Expr.sin (.var "theta"))).eval env) := by
  simp only [bracket_expr, Expr.eval]
  ring

/-- Swapping the test functions negates the square evaluator core in both
modes. -/
lemma R2_core_swap (env : String → ℝ) (tau rho fe he : Expr) (v : PyVal) :
    PoissonWasserstein_R2_core env tau rho he fe v
      = (PoissonWasserstein_R2_core env tau rho fe he v).negate := by
  have hs : ∀ e : String → ℝ, (Expr.mul (bracket_expr "x1" "x2" tau he fe) rho).eval e
      = -((Expr.mul (bracket_expr "x1" "x2" tau fe he) rho).eval e) :=
    integrand_swap "x1" "x2" tau rho fe he
  unfold PoissonWasserstein_R2_core
  cases hb : pyEq v (.bool true) with
  | false =>
    simp only [hb, Bool.false_eq_true, if_false, BracketResult.negate, sym_integrate,
      hs, intervalIntegral.integral_neg]
  | true =>
    simp only [hb, if_true, BracketResult.negate, dblquad, sym_integrate,
      hs, intervalIntegral.integral_neg, neg_zero]

/-- Swapping the test functions negates the torus evaluator core in both
modes. -/
lemma T2_core_swap (env : String → ℝ) (tau rho fe he : Expr) (v : PyVal) :
    PoissonWasserstein_T2_core env tau rho he fe v
      = (PoissonWasserstein_T2_core env tau rho fe he v).negate := by
  have hs : ∀ e : String → ℝ, (Expr.mul (bracket_expr "theta1" "theta2" tau he fe) rho).eval e
      = -((Expr.mul (bracket_expr "theta1" "theta2" tau fe he) rho).eval e) :=
    integrand_swap "theta1" "theta2" tau rho fe he
  unfold PoissonWasserstein_T2_core
  cases hb : pyEq v (.bool true) with
  | false =>
    simp only [hb, Bool.false_eq_true, if_false, BracketResult.negate, sym_integrate,
      hs, intervalIntegral.integral_neg, mul_neg]
  | true =>
    simp only [hb, if_true, BracketResult.negate, dblquad, sym_integrate,
      hs, intervalIntegral.integral_neg, mul_neg, neg_zero]

/-- Swapping the test functions negates the sphere evaluator core in both
modes. -/
lemma S2_core_swap (env : String → ℝ) (tau rho fe he : Expr) (v : PyVal) :
    PoissonWasserstein_S2_core env tau rho he fe v
      = (PoissonWasserstein_S2_core env tau rho fe he v).negate := by
  have hs : ∀ e : String → ℝ,
      (Expr.mul (Expr.mul (bracket_expr "theta" "phi" tau he fe) rho)
        (Expr.sin (.var "theta"))).eval e
      = -((Expr.mul (Expr.mul (bracket_expr "theta" "phi" tau fe he) rho)
        (Expr.sin (.var "theta"))).eval e) :=
    integrand_swap_S2 tau rho fe he
  unfold PoissonWasserstein_S2_core
  cases hb : pyEq v (.bool true) with
  | false =>
    simp only [hb, Bool.false_eq_true, if_false, BracketResult.negate, sym_integrate,
      hs, intervalIntegral.integral_neg, mul_neg]
  | true =>
    simp only [hb, if_true, BracketResult.negate, dblquad, sym_integrate,
      hs, intervalIntegral.integral_neg, mul_neg, neg_zero]

/-- Value of `area_Omega_S2` under the idealized quadrature collaborator:
whatever field is passed, the hardcoded integrand `sin(theta) * cos(phi)`
integrates to 0 over `phi ∈ [0,2π]`, so the whole quadruple integral and
its idealized error estimate are 0. -/
lemma area_hardcoded_value : area_Omega_S2 quad (fun _ _ _ _ => (1:ℝ))
    (0, Real.pi) (0, 2 * Real.pi) = (0, 0) := by
  have h1 : ∀ phi : ℝ, (∫ theta in (0:ℝ)..Real.pi, Real.sin theta * Real.cos phi)
      = 2 * Real.cos phi := by
    intro phi
    rw [intervalIntegral.integral_mul_const, integral_sin]
    norm_num
  have h2 : (∫ phi in (0:ℝ)..(2 * Real.pi), 2 * Real.cos phi) = 0 := by
    rw [intervalIntegral.integral_const_mul, integral_cos]
    simp [Real.sin_two_pi]
  have hform : area_Omega_S2 quad (fun _ _ _ _ => (1:ℝ)) (0, Real.pi) (0, 2 * Real.pi)
      = (∫ t in (0:ℝ)..(2 * Real.pi), (1 / (4 * Real.pi)) *
          ∫ s in (0:ℝ)..Real.pi, ∫ phi in (0:ℝ)..(2 * Real.pi),
            ∫ theta in (0:ℝ)..Real.pi, Real.sin theta * Real.cos phi, 0) := rfl
  rw [hform]
  simp only [h1, h2, intervalIntegral.integral_zero, mul_zero, intervalIntegral.integral_const,
    smul_eq_mul]

/-! ### Claim theorems -/

/-- C1: for every manifold evaluator and all valid expression strings,
swapping the two test-function arguments negates the result, in both exact
(symbolic) and numerical modes: the symbolic value, respectively the
numerical approximation, is negated, the numerical error estimate being the
one the quadrature collaborator reports. -/
theorem poisson_bracket_antisymmetric (parse : String → Except String Expr)
    (env : String → ℝ) (tau rho f h : String) (v : PyVal) (taue rhoe fe he : Expr)
    (h1 : parse tau = .ok taue) (h2 : parse rho = .ok rhoe)
    (h3 : parse f = .ok fe) (h4 : parse h = .ok he) :
    PoissonWasserstein_R2 parse env tau rho h f v
      = Except.map BracketResult.negate (PoissonWasserstein_R2 parse env tau rho f h v)
    ∧ PoissonWasserstein_T2 parse env tau rho h f v
      = Except.map BracketResult.negate (PoissonWasserstein_T2 parse env tau rho f h v)
    ∧ PoissonWasserstein_S2 parse env tau rho h f v
      = Except.map BracketResult.negate (PoissonWasserstein_S2 parse env tau rho f h v) := by
  refine ⟨?_, ?_, ?_⟩
  · simp only [PoissonWasserstein_R2, h1, h2, h3, h4, Except.map]
    rw [R2_core_swap env taue rhoe fe he v]
  · simp only [PoissonWasserstein_T2, h1, h2, h3, h4, Except.map]
    rw [T2_core_swap env taue rhoe fe he v]
  · simp only [PoissonWasserstein_S2, h1, h2, h3, h4, Except.map]
    rw [S2_core_swap env taue rhoe fe he v]

/-- Witness for C1 at the concrete strings of the square scenario, in exact
mode. -/
theorem poisson_bracket_antisymmetric_witness :
    PoissonWasserstein_R2 sympify (fun _ => 0) "1" "1" "x2" "x1" (.bool false)
      = Except.map BracketResult.negate
          (PoissonWasserstein_R2 sympify (fun _ => 0) "1" "1" "x1" "x2" (.bool false))
    ∧ PoissonWasserstein_T2 sympify (fun _ => 0) "1" "1" "x2" "x1" (.bool false)
      = Except.map BracketResult.negate
          (PoissonWasserstein_T2 sympify (fun _ => 0) "1" "1" "x1" "x2" (.bool false))
    ∧ PoissonWasserstein_S2 sympify (fun _ => 0) "1" "1" "x2" "x1" (.bool false)
      = Except.map BracketResult.negate
          (PoissonWasserstein_S2 sympify (fun _ => 0) "1" "1" "x1" "x2" (.bool false)) :=
  poisson_bracket_antisymmetric sympify (fun _ => 0) "1" "1" "x1" "x2" (.bool false)
    (.const 1) (.const 1) (.var "x1") (.var "x2") rfl rfl rfl rfl

/-- C2: `PoissonWasserstein_R2` with `tau="1"`, `rho="1"`, `f="x1"`,
`h="x2"` in exact mode returns the symbolic value 1, whatever the ambient
interpretation of free symbols. -/
theorem square_concrete_exact_bracket :
    ∀ env : String → ℝ,
    PoissonWasserstein_R2 sympify env "1" "1" "x1" "x2" (.bool false)
      = .ok (.symbolic 1) := by
  intro env
  have hform : PoissonWasserstein_R2 sympify env "1" "1" "x1" "x2" (.bool false)
      = .ok (.symbolic (sym_integrate (fun x2v =>
          sym_integrate (fun x1v =>
            (Expr.mul (bracket_expr "x1" "x2" (.const 1) (.var "x1") (.var "x2")) (.const 1)).eval
              (updEnv (updEnv env "x2" x2v) "x1" x1v)) 0 1) 0 1)) := rfl
  rw [hform]
  have hpt : ∀ a b, (Expr.mul (bracket_expr "x1" "x2" (.const 1) (.var "x1") (.var "x2"))
      (.const 1)).eval (updEnv (updEnv env "x2" b) "x1" a) = 1 := by
    intro a b
    simp [bracket_expr, Expr.diff, Expr.eval]
  simp only [hpt, sym_integrate, intervalIntegral.integral_const, smul_eq_mul, sub_zero,
    mul_one, one_mul]

/-- C3: `PoissonWasserstein_T2` with `tau="1"`, `rho="1"`, `f="theta1"`,
`h="theta2"` in exact mode returns the symbolic value 1; the raw double
integral of the integrand over `[0,2π] × [0,2π]` is `(2π)²` and the
normalization constant `1/(4π²)` cancels it exactly. -/
theorem torus_concrete_exact_bracket :
    (∀ env : String → ℝ,
      PoissonWasserstein_T2 sympify env "1" "1" "theta1" "theta2" (.bool false)
        = .ok (.symbolic 1))
    ∧ sym_integrate (fun t2 => sym_integrate (fun t1 =>
        (Expr.mul (bracket_expr "theta1" "theta2" (.const 1) (.var "theta1") (.var "theta2"))
          (.const 1)).eval (updEnv (updEnv (fun _ => 0) "theta2" t2) "theta1" t1))
        0 (2 * Real.pi)) 0 (2 * Real.pi) = (2 * Real.pi) ^ 2
    ∧ (1 / (4 * Real.pi ^ 2)) * (2 * Real.pi) ^ 2 = 1 := by
  have hpt : ∀ (env : String → ℝ) a b,
      (Expr.mul (bracket_expr "theta1" "theta2" (.const 1) (.var "theta1")
        (.var "theta2")) (.const 1)).eval
        (updEnv (updEnv env "theta2" b) "theta1" a) = 1 := by
    intro env a b
    simp [bracket_expr, Expr.diff, Expr.eval]
  have hcancel : (1 / (4 * Real.pi ^ 2)) * (2 * Real.pi) ^ 2 = 1 := by
    field_simp
    ring
  refine ⟨?_, ?_, hcancel⟩
  · intro env
    have hform : PoissonWasserstein_T2 sympify env "1" "1" "theta1" "theta2" (.bool false)
        = .ok (.symbolic ((1 / (4 * Real.pi ^ 2)) * sym_integrate (fun t2 =>
            sym_integrate (fun t1 =>
              (Expr.mul (bracket_expr "theta1" "theta2" (.const 1) (.var "theta1")
                (.var "theta2")) (.const 1)).eval
                (updEnv (updEnv env "theta2" t2) "theta1" t1)) 0 (2 * Real.pi))
            0 (2 * Real.pi))) := rfl
    rw [hform]
    simp only [hpt, sym_integrate, intervalIntegral.integral_const, smul_eq_mul, sub_zero]
    have hpi : (2 * Real.pi) * (2 * Real.pi * 1) = (2 * Real.pi) ^ 2 := by ring
    rw [hpi, hcancel]
  · simp only [hpt, sym_integrate, intervalIntegral.integral_const, smul_eq_mul, sub_zero]
    ring

/-- C4: in `PoissonWasserstein_S2` the measure factor `sin(theta)` is
multiplied into the integrand before any integration in both branches, and
the `1/(4π)` normalization is applied after the double integration over
`theta ∈ [0,π]` (inner) then `phi ∈ [0,2π]` (outer) in the exact branch (in
the numerical branch it is multiplied into the lambdified integrand); in
particular, for `tau="1"`, `rho="1"`, `f="theta"`, `h="phi"` the exact
result is the symbolic value 1. -/
theorem sphere_measure_factor_and_normalization :
    ∀ (env : String → ℝ) (tau rho ff hh : Expr),
    (PoissonWasserstein_S2_core env tau rho ff hh (.bool false)
      = .symbolic ((1 / (4 * Real.pi)) * ∫ pv in (0:ℝ)..(2 * Real.pi),
          ∫ tv in (0:ℝ)..Real.pi,
            ((Expr.mul (bracket_expr "theta" "phi" tau ff hh) rho).eval
              (updEnv (updEnv env "phi" pv) "theta" tv)) * Real.sin tv)
    ∧ PoissonWasserstein_S2_core env tau rho ff hh (.bool true)
      = .numeric (∫ pv in (0:ℝ)..(2 * Real.pi), ∫ tv in (0:ℝ)..Real.pi,
          (1 / (4 * Real.pi)) *
            (((Expr.mul (bracket_expr "theta" "phi" tau ff hh) rho).eval
              (updEnv (updEnv env "phi" pv) "theta" tv)) * Real.sin tv), 0))
    ∧ PoissonWasserstein_S2 sympify env "1" "1" "theta" "phi" (.bool false)
      = .ok (.symbolic 1) := by
  intro env tau rho ff hh
  have hv : ∀ (e : String → ℝ) (a : ℝ), updEnv e "theta" a "theta" = a := fun _ _ => rfl
  refine ⟨⟨?_, ?_⟩, ?_⟩
  · have hform : PoissonWasserstein_S2_core env tau rho ff hh (.bool false)
        = .symbolic ((1 / (4 * Real.pi)) * sym_integrate (fun pv =>
            sym_integrate (fun tv =>
              (Expr.mul (Expr.mul (bracket_expr "theta" "phi" tau ff hh) rho)
                (Expr.sin (.var "theta"))).eval
                (updEnv (updEnv env "phi" pv) "theta" tv)) 0 Real.pi) 0 (2 * Real.pi)) := rfl
    rw [hform]
    simp only [sym_integrate, Expr.eval, hv]
  · have hform : PoissonWasserstein_S2_core env tau rho ff hh (.bool true)
        = .numeric (dblquad
          (fun tv pv => (1 / (4 * Real.pi)) *
            (Expr.mul (Expr.mul (bracket_expr "theta" "phi" tau ff hh) rho)
              (Expr.sin (.var "theta"))).eval (updEnv (updEnv env "phi" pv) "theta" tv))
          0 (2 * Real.pi) (fun _ => 0) (fun _ => Real.pi)) := rfl
    rw [hform]
    simp only [dblquad, Expr.eval, hv]
  · have hform : PoissonWasserstein_S2 sympify env "1" "1" "theta" "phi" (.bool false)
        = .ok (.symbolic ((1 / (4 * Real.pi)) * sym_integrate (fun pv =>
            sym_integrate (fun tv =>
              (Expr.mul (Expr.mul (bracket_expr "theta" "phi" (.const 1) (.var "theta")
                (.var "phi")) (.const 1)) (.sin (.var "theta"))).eval
                (updEnv (updEnv env "phi" pv) "theta" tv)) 0 Real.pi)
            0 (2 * Real.pi))) := rfl
    rw [hform]
    have hpt : ∀ a b, (Expr.mul (Expr.mul (bracket_expr "theta" "phi" (.const 1) (.var "theta")
        (.var "phi")) (.const 1)) (.sin (.var "theta"))).eval
        (updEnv (updEnv env "phi" b) "theta" a) = Real.sin a := by
      intro a b
      simp [bracket_expr, Expr.diff, Expr.eval, updEnv]
    simp only [hpt, sym_integrate, integral_sin, Real.cos_zero, Real.cos_pi,
      intervalIntegral.integral_const, smul_eq_mul, sub_zero]
    have h2 : (1:ℝ) - (-1) = 2 := by norm_num
    rw [h2]
    congr 2
    field_simp
    ring

/-- C5: the numerical branch of the sphere evaluator integrates over
exactly the same angular domain and in the same variable order as the exact
branch — `theta` over `[0,π]` as the inner (first-integrated) variable and
`phi` over `[0,2π]` as the outer variable, the numerical π bounds denoting
the same real value as the symbolic ones — so under the idealized
collaborators both branches produce the same value, the common double
integral displayed in the last conjunct. -/
theorem sphere_numeric_exact_domain_agreement :
    ∀ (env : String → ℝ) (tau rho ff hh : Expr), ∃ v : ℝ,
    PoissonWasserstein_S2_core env tau rho ff hh (.bool true) = .numeric (v, 0)
    ∧ PoissonWasserstein_S2_core env tau rho ff hh (.bool false) = .symbolic v
    ∧ v = (1 / (4 * Real.pi)) * ∫ pv in (0:ℝ)..(2 * Real.pi), ∫ tv in (0:ℝ)..Real.pi,
        (Expr.mul (Expr.mul (bracket_expr "theta" "phi" tau ff hh) rho)
          (Expr.sin (.var "theta"))).eval (updEnv (updEnv env "phi" pv) "theta" tv) := by
  intro env tau rho ff hh
  refine ⟨_, ?_, rfl, rfl⟩
  have hform : PoissonWasserstein_S2_core env tau rho ff hh (.bool true)
      = .numeric (dblquad
        (fun tv pv => (1 / (4 * Real.pi)) *
          (Expr.mul (Expr.mul (bracket_expr "theta" "phi" tau ff hh) rho)
            (Expr.sin (.var "theta"))).eval (updEnv (updEnv env "phi" pv) "theta" tv))
        0 (2 * Real.pi) (fun _ => 0) (fun _ => Real.pi)) := rfl
  rw [hform]
  simp only [dblquad, intervalIntegral.integral_const_mul]
  rfl

/-- C6: `area_Omega_S2` is four nested 1-D quadratures in exactly the order
`theta` over `[0,π]` innermost, then `phi` over `[0,2π]`, then `s` over
`[I_1.1, I_1.2]`, then `t` over `[I_2.1, I_2.2]` outermost with the factor
`1/(4π)` in the outermost integrand; every inner quadrature result is
projected to its value component and only the outermost quadrature's
(value, error-estimate) pair is returned, for an arbitrary quadrature
collaborator `quadC`; under the idealized collaborator `quad` the value is
the iterated interval integral and the returned error estimate is the
outermost call's. -/
theorem area_nested_quadrature_shape :
    ∀ (quadC : (ℝ → ℝ) → ℝ → ℝ → ℝ × ℝ) (g : ℝ → ℝ → ℝ → ℝ → ℝ) (I_1 I_2 : ℝ × ℝ),
    area_Omega_S2 quadC g I_1 I_2
      = quadC (fun t => (1 / (4 * Real.pi)) *
          (quadC (fun s =>
            (quadC (fun phi =>
              (quadC (fun theta => Real.sin theta * Real.cos phi) 0 Real.pi).1)
              0 (2 * Real.pi)).1)
            I_1.1 I_1.2).1)
          I_2.1 I_2.2
    ∧ area_Omega_S2 quad g I_1 I_2
      = (∫ t in I_2.1..I_2.2, (1 / (4 * Real.pi)) *
          ∫ s in I_1.1..I_1.2, ∫ phi in (0:ℝ)..(2 * Real.pi),
            ∫ theta in (0:ℝ)..Real.pi, Real.sin theta * Real.cos phi, 0) :=
  fun _ _ _ _ => ⟨rfl, rfl⟩

/-- C7 counterexample: for the constant field 1 and intervals `[0,π]`,
`[0,2π]`, the value returned by `area_Omega_S2` is not 1 (the field
argument is ignored and the hardcoded integrand integrates to 0). -/
theorem area_constant_field_not_one :
    (area_Omega_S2 quad (fun _ _ _ _ => (1:ℝ)) (0, Real.pi) (0, 2 * Real.pi)).1 ≠ 1 := by
  rw [area_hardcoded_value]
  norm_num

/-- C7 as amended: for the constant field 1 (as for any field argument),
`area_Omega_S2` with `I_1 = [0,π]` and `I_2 = [0,2π]` returns the pair
`(0, 0)`: the hardcoded field `sin(theta) * cos(phi)` replaces the
argument and its `phi`-integral vanishes. -/
theorem area_constant_field_result :
    area_Omega_S2 quad (fun _ _ _ _ => (1:ℝ)) (0, Real.pi) (0, 2 * Real.pi) = (0, 0) :=
  area_hardcoded_value

/-- C8: the result of `area_Omega_S2` does not depend on its field
argument, for any quadrature collaborator and any intervals, because the
parameter is shadowed by the hardcoded local field `sin(theta)*cos(phi)`. -/
theorem area_independent_of_field_argument :
    ∀ (quadC : (ℝ → ℝ) → ℝ → ℝ → ℝ × ℝ) (g1 g2 : ℝ → ℝ → ℝ → ℝ → ℝ) (I_1 I_2 : ℝ × ℝ),
    area_Omega_S2 quadC g1 I_1 I_2 = area_Omega_S2 quadC g2 I_1 I_2 :=
  fun _ _ _ _ _ => rfl

/-- C9: in every bracket evaluator, if parsing any of the four expression
strings fails (the first failure in the source order `tau`, `rho`,
`function1`, `function2`), the parse error propagates unmodified to the
caller whatever the mode flag: the result is exactly that error, so no
partial result is produced and no fallback between modes happens. -/
theorem parse_error_propagates (parse : String → Except String Expr) (env : String → ℝ)
    (tau rho f1 f2 : String) (v : PyVal) (e : String)
    (hfail : parse tau = .error e
      ∨ ((∃ a, parse tau = .ok a) ∧ parse rho = .error e)
      ∨ ((∃ a, parse tau = .ok a) ∧ (∃ b, parse rho = .ok b) ∧ parse f1 = .error e)
      ∨ ((∃ a, parse tau = .ok a) ∧ (∃ b, parse rho = .ok b) ∧ (∃ c, parse f1 = .ok c)
          ∧ parse f2 = .error e)) :
    PoissonWasserstein_R2 parse env tau rho f1 f2 v = .error e
    ∧ PoissonWasserstein_T2 parse env tau rho f1 f2 v = .error e
    ∧ PoissonWasserstein_S2 parse env tau rho f1 f2 v = .error e := by
  rcases hfail with h | ⟨⟨a, ha⟩, h⟩ | ⟨⟨a, ha⟩, ⟨b, hb⟩, h⟩ | ⟨⟨a, ha⟩, ⟨b, hb⟩, ⟨c, hc⟩, h⟩
  · exact ⟨by simp [PoissonWasserstein_R2, h], by simp [PoissonWasserstein_T2, h],
      by simp [PoissonWasserstein_S2, h]⟩
  · exact ⟨by simp [PoissonWasserstein_R2, ha, h], by simp [PoissonWasserstein_T2, ha, h],
      by simp [PoissonWasserstein_S2, ha, h]⟩
  · exact ⟨by simp [PoissonWasserstein_R2, ha, hb, h], by simp [PoissonWasserstein_T2, ha, hb, h],
      by simp [PoissonWasserstein_S2, ha, hb, h]⟩
  · exact ⟨by simp [PoissonWasserstein_R2, ha, hb, hc, h],
      by simp [PoissonWasserstein_T2, ha, hb, hc, h],
      by simp [PoissonWasserstein_S2, ha, hb, hc, h]⟩

/-- Witness for C9: the malformed first argument `"1+"` makes all three
evaluators return exactly the collaborator's parse error. -/
theorem parse_error_propagates_witness :
    PoissonWasserstein_R2 sympify (fun _ => 0) "1+" "1" "x1" "x2" (.bool false)
      = .error "SympifyError: 1+"
    ∧ PoissonWasserstein_T2 sympify (fun _ => 0) "1+" "1" "x1" "x2" (.bool false)
      = .error "SympifyError: 1+"
    ∧ PoissonWasserstein_S2 sympify (fun _ => 0) "1+" "1" "x1" "x2" (.bool false)
      = .error "SympifyError: 1+" :=
  parse_error_propagates sympify (fun _ => 0) "1+" "1" "x1" "x2" (.bool false)
    "SympifyError: 1+" (Or.inl rfl)

/-- C10: in every bracket evaluator core the numerical branch is taken if
and only if the mode argument compares equal to Python's `True` under
Python equality (so the integer 1 selects it, while any string — truthy or
not — and any other non-`True` value selects the exact branch and a
symbolic expression is returned). -/
theorem numerical_branch_selection :
    ∀ (env : String → ℝ) (tau rho ff hh : Expr) (v : PyVal),
    ((PoissonWasserstein_R2_core env tau rho ff hh v).isNumeric = pyEq v (.bool true)
      ∧ (PoissonWasserstein_T2_core env tau rho ff hh v).isNumeric = pyEq v (.bool true)
      ∧ (PoissonWasserstein_S2_core env tau rho ff hh v).isNumeric = pyEq v (.bool true))
    ∧ ∀ s : String, pyEq (.str s) (.bool true) = false := by
  intro env tau rho ff hh v
  constructor
  · cases hb : pyEq v (.bool true) <;>
      simp [PoissonWasserstein_R2_core, PoissonWasserstein_T2_core, PoissonWasserstein_S2_core,
        hb, BracketResult.isNumeric]
  · intro s
    rfl
